import Mathlib

/-!
Verification of the PiiWaitCondition synchronization primitive
(src/core/PiiWaitCondition.h) against its specification.

The repository ships only the class header. The inline accessors
(queueMode, queueLength, waiterCount), the enum QueueMode, the default
construction argument (NoQueue) and the declared storage of the counters
(unsigned int, 32 bits) are taken from the header. The bodies of wait,
wakeOne and wakeAll are not in the sampled sources, so they are modelled
from the specification text (section 4.1 of the design document), with
the counter arithmetic performed on the 32-bit unsigned storage the
header declares.

Two views of the primitive are developed:
 - a sequential view (`PiiWaitCondition` with pure functions `wait`,
   `wakeOne`, `wakeAll`) for the counter bookkeeping scenarios, and
 - a labelled small-step relation (`SysState`, `Step`) in which blocked
   threads are explicit, for the concurrency and timeout claims.
-/

set_option autoImplicit false

/-- Modulus of the 32-bit unsigned int counters `_iWaiters` and
`_iWakeSignals` declared in the header. -/
def UINT_MOD : Nat := 2 ^ 32

/-- The sentinel value of the unsigned long timeout parameter of `wait`;
per the header, a wait with this timeout never times out. Unsigned long
is 64 bits wide on the target platform. -/
def ULONG_MAX : Nat := 2 ^ 64 - 1

/-- Signalling modes, from the header enum `QueueMode { NoQueue, Queue }`. -/
inductive QueueMode where
  | NoQueue
  | Queue
deriving DecidableEq

/-- The counter state of a PiiWaitCondition object: the fields
`_bQueue : bool`, `_iWaiters : unsigned int` and
`_iWakeSignals : unsigned int` of the header, with the unsigned ints
represented as natural numbers kept below `UINT_MOD` by the operations. -/
structure PiiWaitCondition where
  _bQueue : Bool
  _iWaiters : Nat
  _iWakeSignals : Nat
deriving DecidableEq

/-- From the header: `queueMode() const { return _bQueue ? Queue : NoQueue; }` -/
def queueMode (c : PiiWaitCondition) : QueueMode :=
  if c._bQueue then QueueMode.Queue else QueueMode.NoQueue

/-- From the header: `queueLength() const { return _iWakeSignals; }` -/
def queueLength (c : PiiWaitCondition) : Nat := c._iWakeSignals

/-- From the header: `waiterCount() const { return _iWaiters; }` -/
def waiterCount (c : PiiWaitCondition) : Nat := c._iWaiters

/-- Modelled from the spec: construction (the constructor body is not in
the sampled sources). A fresh instance has `waiterCount = 0` and
`pendingSignals = 0`; `_bQueue` holds exactly when the requested mode is
`Queue`, matching the header accessor `queueMode`. -/
def construct (mode : QueueMode) : PiiWaitCondition :=
  { _bQueue := match mode with | QueueMode.Queue => true | QueueMode.NoQueue => false
    _iWaiters := 0
    _iWakeSignals := 0 }

/-- Construction with no explicit argument: the header declares
`PiiWaitCondition(QueueMode mode = NoQueue)`, so the default-constructed
instance is `construct NoQueue`. -/
def constructDefault : PiiWaitCondition := construct QueueMode.NoQueue

/-- Modelled from the spec: the update of the pending-signal counter by a
`wakeOne` that found no waiting thread. In `Queue` mode the counter is
incremented by 1 (the storage is the 32-bit unsigned `_iWakeSignals`, so
the increment wraps modulo `UINT_MOD`); in `NoQueue` mode it is set to 1
if currently 0 and left unchanged otherwise. -/
def nextWakeSignals (bQueue : Bool) (p : Nat) : Nat :=
  if bQueue then (p + 1) % UINT_MOD else if p = 0 then 1 else p

/-- Modelled from the spec: the counter effect of a `wakeOne` call (the
body is not in the sampled sources). If `waiterCount > 0`, exactly one
blocked thread is notified and neither counter changes (the woken thread
itself decrements `_iWaiters` on resumption); otherwise a pending signal
is recorded per the mode policy. -/
def wakeOne (c : PiiWaitCondition) : PiiWaitCondition :=
  if 0 < c._iWaiters then c
  else { c with _iWakeSignals := nextWakeSignals c._bQueue c._iWakeSignals }

/-- k successive `wakeOne` calls. -/
def wakeOneN : Nat → PiiWaitCondition → PiiWaitCondition
  | 0, c => c
  | k + 1, c => wakeOneN k (wakeOne c)

/-- Modelled from the spec: the counter effect of a `wakeAll` call (the
body is not in the sampled sources). All blocked threads are released
(each decrements `_iWaiters` itself on resumption) and the pending-signal
counter is unconditionally reset to 0 in either mode. -/
def wakeAll (c : PiiWaitCondition) : PiiWaitCondition :=
  { c with _iWakeSignals := 0 }

/-- Outcome of entering `wait`: either the call returns true at once
(a pending signal was consumed, the thread never suspends), or the
calling thread suspends on the condition variable, bounded by the given
timeout, having incremented the waiter counter. -/
inductive WaitOutcome where
  | immediate (after : PiiWaitCondition)
  | suspend (time : Nat) (after : PiiWaitCondition)
deriving DecidableEq

/-- Modelled from the spec: the entry of a `wait(time)` call (the body is
not in the sampled sources). Under the lock: if `pendingSignals > 0` it
is decremented by 1 and the call returns true immediately; otherwise
`_iWaiters` is incremented (32-bit unsigned storage) and the thread
suspends bounded by `time`. -/
def wait (c : PiiWaitCondition) (time : Nat) : WaitOutcome :=
  if 0 < c._iWakeSignals then
    WaitOutcome.immediate { c with _iWakeSignals := c._iWakeSignals - 1 }
  else
    WaitOutcome.suspend time { c with _iWaiters := (c._iWaiters + 1) % UINT_MOD }

/-- n successive `wait` calls, all of which must return immediately:
`none` when one of them would suspend. -/
def waitImmediateN : Nat → PiiWaitCondition → Option PiiWaitCondition
  | 0, c => some c
  | n + 1, c =>
    match wait c ULONG_MAX with
    | WaitOutcome.immediate c2 => waitImmediateN n c2
    | WaitOutcome.suspend _ _ => none

/-- Modelled from the spec: the shared state of one PiiWaitCondition
instance together with the threads currently blocked inside wait. The
list `blocked` holds the timeout argument of each blocked thread; the
spec models the waiter count as a plain non-negative integer, namely the
length of this list. `iWakeSignals` is the pending-signal counter, with
the 32-bit unsigned storage the header declares. -/
structure SysState where
  bQueue : Bool
  iWakeSignals : Nat
  blocked : List Nat
deriving DecidableEq

/-- Modelled from the spec: a freshly constructed instance has no blocked
thread and no pending signal. -/
def initState (mode : QueueMode) : SysState :=
  { bQueue := match mode with | QueueMode.Queue => true | QueueMode.NoQueue => false
    iWakeSignals := 0
    blocked := [] }

/-- Observable event of one atomic critical section on the instance. -/
inductive Label where
  | waitImm
  | waitBlockL (time : Nat)
  | wakeOneL (released : Option Nat)
  | wakeAllL (released : List Nat)
  | timeoutL (time : Nat)
  | spuriousL (time : Nat)
deriving DecidableEq

/-- The boolean result a wait call reports when an event completes it:
true when it consumed a pending signal or was released by wakeOne, false
when it timed out, and no result for events that complete no single wait
call (a wakeAll releases every thread in its list, each returning true;
a filtered spurious resume returns nothing and leaves the thread
blocked). -/
def waitReturn : Label → Option Bool
  | Label.waitImm => some true
  | Label.wakeOneL (some _) => some true
  | Label.timeoutL _ => some false
  | _ => none

/-- Modelled from the spec: the atomic transitions of the primitive, one
per critical section held under the internal mutex.

 - waitImmediate: a wait call finds a pending signal, consumes it and
   returns true without suspending.
 - waitSuspend: a wait call finds no pending signal and suspends bounded
   by its timeout (an unsigned long, so at most ULONG_MAX); the release
   of the lock and the suspension are one atomic hand-off.
 - wakeOneRelease: a wakeOne call finds blocked threads and releases
   exactly one of them (no fairness assumption); the bookkeeping of the
   released thread removes it from the blocked set; counters otherwise
   unchanged.
 - wakeOneRecord: a wakeOne call finds no blocked thread and records a
   pending signal per the mode policy.
 - wakeAllStep: a wakeAll call releases every blocked thread and resets
   the pending counter to 0.
 - timeoutStep: a blocked wait whose bound elapsed with no wake resumes
   and returns false; impossible for the ULONG_MAX sentinel.
 - spuriousStep: a spurious resume of a blocked thread is filtered by
   re-checking the wake condition: the thread stays blocked and nothing
   changes. -/
inductive Step : SysState → Label → SysState → Prop where
  | waitImmediate (s : SysState) :
      0 < s.iWakeSignals →
      Step s Label.waitImm { s with iWakeSignals := s.iWakeSignals - 1 }
  | waitSuspend (s : SysState) (time : Nat) :
      s.iWakeSignals = 0 → time ≤ ULONG_MAX →
      Step s (Label.waitBlockL time) { s with blocked := time :: s.blocked }
  | wakeOneRelease (s : SysState) (pre : List Nat) (time : Nat) (post : List Nat) :
      s.blocked = pre ++ time :: post →
      Step s (Label.wakeOneL (some time)) { s with blocked := pre ++ post }
  | wakeOneRecord (s : SysState) :
      s.blocked = [] →
      Step s (Label.wakeOneL none)
        { s with iWakeSignals := nextWakeSignals s.bQueue s.iWakeSignals }
  | wakeAllStep (s : SysState) :
      Step s (Label.wakeAllL s.blocked) { s with blocked := [], iWakeSignals := 0 }
  | timeoutStep (s : SysState) (pre : List Nat) (time : Nat) (post : List Nat) :
      time ≠ ULONG_MAX → s.blocked = pre ++ time :: post →
      Step s (Label.timeoutL time) { s with blocked := pre ++ post }
  | spuriousStep (s : SysState) (pre : List Nat) (time : Nat) (post : List Nat) :
      s.blocked = pre ++ time :: post →
      Step s (Label.spuriousL time) s

/-- States reachable from a freshly constructed instance by the atomic
transitions. -/
inductive Reachable : SysState → Prop where
  | init (mode : QueueMode) : Reachable (initState mode)
  | step (s s2 : SysState) (l : Label) :
      Reachable s → Step s l s2 → Reachable s2

/-- The counter modulus is positive. -/
theorem uint_mod_pos : 0 < UINT_MOD := by norm_num [UINT_MOD]

/-- A wakeOne in Queue mode with no waiters adds one to the pending
counter, modulo the 32-bit storage. -/
theorem wakeOne_queue (p : Nat) :
    wakeOne ⟨true, 0, p⟩ = ⟨true, 0, (p + 1) % UINT_MOD⟩ := by
  simp [wakeOne, nextWakeSignals]

/-- k wakeOne calls in Queue mode with no waiters accumulate modulo the
32-bit storage. -/
theorem wakeOneN_queue (k : Nat) :
    ∀ p : Nat, p < UINT_MOD →
      wakeOneN k ⟨true, 0, p⟩ = ⟨true, 0, (p + k) % UINT_MOD⟩ := by
  induction k with
  | zero =>
    intro p hp
    simp [wakeOneN, Nat.mod_eq_of_lt hp]
  | succ k ih =>
    intro p hp
    rw [wakeOneN, wakeOne_queue, ih ((p + 1) % UINT_MOD) (Nat.mod_lt _ uint_mod_pos)]
    rw [Nat.mod_add_mod]
    have harith : p + 1 + k = p + (k + 1) := by omega
    rw [harith]

/-- While at least j pending signals remain, j wait calls all return
immediately, each consuming one pending signal. -/
theorem waitImmediateN_imm (j : Nat) :
    ∀ (p w : Nat) (b : Bool), j ≤ p →
      waitImmediateN j ⟨b, w, p⟩ = some ⟨b, w, p - j⟩ := by
  induction j with
  | zero =>
    intro p w b _
    simp [waitImmediateN]
  | succ j ih =>
    intro p w b hj
    have hp : 0 < p := by omega
    have hwx : wait ⟨b, w, p⟩ ULONG_MAX = WaitOutcome.immediate ⟨b, w, p - 1⟩ := by
      simp [wait, hp]
    rw [waitImmediateN]
    rw [hwx]
    show waitImmediateN j ⟨b, w, p - 1⟩ = some ⟨b, w, p - (j + 1)⟩
    have harith : p - (j + 1) = p - 1 - j := by omega
    rw [harith]
    exact ih (p - 1) w b (by omega)

/-- One wakeOne in NoQueue mode with no waiters and at most one pending
signal leaves exactly one pending signal. -/
theorem wakeOne_noqueue (p : Nat) (hp : p ≤ 1) :
    wakeOne ⟨false, 0, p⟩ = ⟨false, 0, 1⟩ := by
  have hc : p = 0 ∨ p = 1 := by omega
  rcases hc with rfl | rfl <;> simp [wakeOne, nextWakeSignals]

/-- Any positive number of wakeOne calls in NoQueue mode with no waiters
collapses to exactly one pending signal. -/
theorem wakeOneN_noqueue (k : Nat) :
    ∀ p : Nat, p ≤ 1 → 1 ≤ k → wakeOneN k ⟨false, 0, p⟩ = ⟨false, 0, 1⟩ := by
  induction k with
  | zero =>
    intro p hp hk
    exact absurd hk (by omega)
  | succ k ih =>
    intro p hp hk
    rw [wakeOneN, wakeOne_noqueue p hp]
    cases Nat.eq_zero_or_pos k with
    | inl h0 =>
      rw [h0]
      rfl
    | inr hpos => exact ih 1 (le_refl 1) hpos

/-- In every reachable state a pending signal and a blocked thread never
coexist: wait suspends only when no signal is pending, and a signal is
recorded only when no thread is blocked. -/
theorem pending_or_blocked (s : SysState) (h : Reachable s) :
    s.blocked = [] ∨ s.iWakeSignals = 0 := by
  induction h with
  | init mode => exact Or.inl rfl
  | step s s2 l hr hst ih =>
    cases hst with
    | waitImmediate hp =>
      left
      rcases ih with h1 | h1
      · exact h1
      · exact absurd hp (by omega)
    | waitSuspend time hp ht =>
      right
      exact hp
    | wakeOneRelease pre time post hbl =>
      right
      rcases ih with h1 | h1
      · rw [h1] at hbl
        exact absurd hbl (by simp)
      · exact h1
    | wakeOneRecord hbl =>
      left
      exact hbl
    | wakeAllStep =>
      left
      rfl
    | timeoutStep pre time post hne hbl =>
      right
      rcases ih with h1 | h1
      · rw [h1] at hbl
        exact absurd hbl (by simp)
      · exact h1
    | spuriousStep pre time post hbl => exact ih

/-- In every reachable NoQueue-mode state the pending-signal counter is
at most 1: repeated signals with no waiter collapse to one. -/
theorem noqueue_pending_le_one (s : SysState) (h : Reachable s) :
    s.bQueue = false → s.iWakeSignals ≤ 1 := by
  induction h with
  | init mode =>
    intro _
    cases mode <;> simp [initState]
  | step s s2 l hr hst ih =>
    cases hst with
    | waitImmediate hp =>
      intro hb
      have h1 := ih hb
      show s.iWakeSignals - 1 ≤ 1
      omega
    | waitSuspend time hp ht =>
      intro hb
      show s.iWakeSignals ≤ 1
      exact ih hb
    | wakeOneRelease pre time post hbl =>
      intro hb
      show s.iWakeSignals ≤ 1
      exact ih hb
    | wakeOneRecord hbl =>
      intro hb
      have hbs : s.bQueue = false := hb
      have h1 := ih hbs
      show nextWakeSignals s.bQueue s.iWakeSignals ≤ 1
      rw [hbs]
      simp only [nextWakeSignals, Bool.false_eq_true, if_false]
      split <;> omega
    | wakeAllStep =>
      intro hb
      show (0 : Nat) ≤ 1
      omega
    | timeoutStep pre time post hne hbl =>
      intro hb
      show s.iWakeSignals ≤ 1
      exact ih hb
    | spuriousStep pre time post hbl => exact ih

/-- For every k, the Queue-mode state with k modulo 2 to the power 32
pending signals and no blocked thread is reachable, by k wakeOne calls on
a fresh instance. -/
theorem reachable_queue_pending (k : Nat) :
    Reachable ⟨true, k % UINT_MOD, []⟩ := by
  induction k with
  | zero =>
    have h : (⟨true, 0 % UINT_MOD, []⟩ : SysState) = initState QueueMode.Queue := by
      simp [initState]
    rw [h]
    exact Reachable.init QueueMode.Queue
  | succ k ih =>
    refine Reachable.step _ _ (Label.wakeOneL none) ih ?_
    have he : (⟨true, (k + 1) % UINT_MOD, []⟩ : SysState) =
        { bQueue := true, iWakeSignals := nextWakeSignals true (k % UINT_MOD),
          blocked := ([] : List Nat) } := by
      simp [nextWakeSignals, Nat.mod_add_mod]
    rw [he]
    exact Step.wakeOneRecord _ rfl

/-- C1: the class documentation declares `Queue` the default mode, so a
default-constructed instance should report `queueMode() = Queue`; but the
declared default argument is `NoQueue`, and evaluating the code at the
default construction yields `NoQueue`, contradicting the documentation. -/
theorem C1_default_mode :
    queueMode constructDefault = QueueMode.NoQueue ∧
    queueMode constructDefault ≠ QueueMode.Queue := by
  constructor
  · rfl
  · intro h
    exact QueueMode.noConfusion h

/-- C2 counterexample: the claim quantifies over every k, but the pending
counter is a 32-bit unsigned int; after 2 to the power 32 wakeOne calls on
a fresh Queue-mode instance with no waiters, queueLength is 0, not k. -/
theorem C2_wrap_counterexample :
    queueLength (wakeOneN (2 ^ 32) (construct QueueMode.Queue)) ≠ 2 ^ 32 := by
  have h := wakeOneN_queue (2 ^ 32) 0 (by norm_num [UINT_MOD])
  rw [show construct QueueMode.Queue = (⟨true, 0, 0⟩ : PiiWaitCondition) from rfl, h]
  simp [queueLength, UINT_MOD]

/-- C2 (amended with k below 2 to the power 32): on a Queue-mode instance
with no waiters and no pending signals, k wakeOne calls leave
queueLength = k; the next j waits (j up to k) all return true immediately,
leaving k - j pending signals; and after k such waits the next wait call
suspends for any timeout. -/
theorem C2_queue_signal_accumulation (c : PiiWaitCondition) (k : Nat)
    (hmode : queueMode c = QueueMode.Queue) (hw : waiterCount c = 0)
    (hq : queueLength c = 0) (hk : k < UINT_MOD) :
    queueLength (wakeOneN k c) = k ∧
    (∀ j, j ≤ k → waitImmediateN j (wakeOneN k c) = some ⟨true, 0, k - j⟩) ∧
    (∀ ck, waitImmediateN k (wakeOneN k c) = some ck →
      ∀ time, ∃ cb, wait ck time = WaitOutcome.suspend time cb) := by
  obtain ⟨b, w, p⟩ := c
  simp only [waiterCount] at hw
  simp only [queueLength] at hq
  subst hw
  subst hq
  cases b with
  | false => exact absurd hmode (by simp [queueMode])
  | true =>
    have hN := wakeOneN_queue k 0 (by norm_num [UINT_MOD])
    rw [Nat.zero_add, Nat.mod_eq_of_lt hk] at hN
    rw [hN]
    refine ⟨rfl, ?_, ?_⟩
    · intro j hj
      exact waitImmediateN_imm j k 0 true hj
    · intro ck hck time
      have hk2 := waitImmediateN_imm k k 0 true (le_refl k)
      rw [hck, Nat.sub_self] at hk2
      have hcke : ck = ⟨true, 0, 0⟩ := by
        injection hk2 with h2
      rw [hcke]
      exact ⟨⟨true, (0 + 1) % UINT_MOD, 0⟩, rfl⟩

/-- C2 witness: three wakeOne calls on a fresh Queue instance queue three
signals, and two waits consume two of them. -/
theorem C2_queue_signal_accumulation_witness :
    queueLength (wakeOneN 3 (construct QueueMode.Queue)) = 3 ∧
    waitImmediateN 2 (wakeOneN 3 (construct QueueMode.Queue)) = some ⟨true, 0, 1⟩ := by
  have h := C2_queue_signal_accumulation (construct QueueMode.Queue) 3 rfl rfl rfl
    (by norm_num [UINT_MOD])
  exact ⟨h.1, h.2.1 2 (by norm_num)⟩

/-- C3: in NoQueue mode the pending-signal counter never exceeds 1 in any
reachable state; and on an instance with no waiters and at most one
pending signal, k wakeOne calls (k at least 1) leave queueLength exactly
1, one wait then returns true immediately leaving no pending signal, and
the next wait suspends. -/
theorem C3_noqueue_collapse (s : SysState) (c : PiiWaitCondition) (k : Nat)
    (hr : Reachable s) (hsb : s.bQueue = false)
    (hmode : queueMode c = QueueMode.NoQueue) (hw : waiterCount c = 0)
    (hq : queueLength c ≤ 1) (hk : 1 ≤ k) :
    s.iWakeSignals ≤ 1 ∧
    queueLength (wakeOneN k c) = 1 ∧
    (∀ time, wait (wakeOneN k c) time = WaitOutcome.immediate ⟨false, 0, 0⟩) ∧
    (∀ time, ∃ cb, wait ⟨false, 0, 0⟩ time = WaitOutcome.suspend time cb) := by
  obtain ⟨b, w, p⟩ := c
  simp only [waiterCount] at hw
  simp only [queueLength] at hq
  subst hw
  cases b with
  | true => exact absurd hmode (by simp [queueMode])
  | false =>
    rw [wakeOneN_noqueue k p hq hk]
    refine ⟨noqueue_pending_le_one s hr hsb, rfl, ?_, ?_⟩
    · intro time
      rfl
    · intro time
      exact ⟨⟨false, (0 + 1) % UINT_MOD, 0⟩, rfl⟩

/-- C3 witness: a fresh NoQueue instance is reachable with at most one
pending signal, and three wakeOne calls on a fresh NoQueue instance leave
exactly one queued signal. -/
theorem C3_noqueue_collapse_witness :
    (initState QueueMode.NoQueue).iWakeSignals ≤ 1 ∧
    queueLength (wakeOneN 3 (construct QueueMode.NoQueue)) = 1 := by
  have h := C3_noqueue_collapse (initState QueueMode.NoQueue)
    (construct QueueMode.NoQueue) 3 (Reachable.init QueueMode.NoQueue) rfl rfl rfl
    (by decide) (by decide)
  exact ⟨h.1, h.2.1⟩

/-- C4: wakeAll leaves queueLength equal to 0, in either mode, regardless
of the prior pending count; in the step model it moreover releases every
blocked thread while building no queue. -/
theorem C4_wakeAll_clears :
    (∀ c : PiiWaitCondition, queueLength (wakeAll c) = 0) ∧
    (∀ (s : SysState) (rel : List Nat) (s2 : SysState),
      Step s (Label.wakeAllL rel) s2 → s2.iWakeSignals = 0 ∧ s2.blocked = []) := by
  constructor
  · intro c
    rfl
  · intro s rel s2 hst
    cases hst with
    | wakeAllStep => exact ⟨rfl, rfl⟩

/-- C4 witness: wakeAll on an instance with 7 pending signals leaves 0;
a wakeAll step from a state with 5 pending signals and one blocked thread
leaves no pending signal and no blocked thread. -/
theorem C4_wakeAll_clears_witness :
    queueLength (wakeAll ⟨false, 0, 7⟩) = 0 ∧
    (⟨true, 0, []⟩ : SysState).iWakeSignals = 0 ∧
    (⟨true, 0, []⟩ : SysState).blocked = [] :=
  ⟨C4_wakeAll_clears.1 ⟨false, 0, 7⟩,
   C4_wakeAll_clears.2 ⟨true, 5, [3]⟩ [3] ⟨true, 0, []⟩ (Step.wakeAllStep _)⟩

/-- C5: a wait entered with pendingSignals positive consumes exactly one
pending signal, returns true immediately without suspending, and leaves
the waiter counter (and the mode) unchanged, for every timeout value. -/
theorem C5_wait_consumes_pending (c : PiiWaitCondition) (time : Nat)
    (h : 0 < queueLength c) :
    wait c time = WaitOutcome.immediate { c with _iWakeSignals := c._iWakeSignals - 1 } ∧
    queueLength { c with _iWakeSignals := c._iWakeSignals - 1 } = queueLength c - 1 ∧
    waiterCount { c with _iWakeSignals := c._iWakeSignals - 1 } = waiterCount c := by
  refine ⟨?_, rfl, rfl⟩
  have h2 : 0 < c._iWakeSignals := h
  simp [wait, h2]

/-- C5 witness: on a concrete instance with 5 pending signals and 2
(bookkept) waiters, wait with timeout 100 returns immediately with 4
pending signals and the waiter counter untouched. -/
theorem C5_wait_consumes_pending_witness :
    wait ⟨true, 2, 5⟩ 100 = WaitOutcome.immediate ⟨true, 2, 4⟩ ∧
    queueLength (⟨true, 2, 4⟩ : PiiWaitCondition) = 4 ∧
    waiterCount (⟨true, 2, 4⟩ : PiiWaitCondition) = 2 :=
  C5_wait_consumes_pending ⟨true, 2, 5⟩ 100 (by decide)

/-- C6: in every reachable state, a wakeOne performed while threads are
blocked releases exactly one blocked thread, leaves the pending-signal
counter unchanged, and that counter is 0 both before and after (the
signal is delivered directly, never queued). -/
theorem C6_wakeOne_releases_one (s s2 : SysState) (r : Option Nat)
    (hre : Reachable s) (hb : s.blocked ≠ [])
    (hst : Step s (Label.wakeOneL r) s2) :
    (∃ t, r = some t) ∧
    s2.blocked.length + 1 = s.blocked.length ∧
    s2.iWakeSignals = s.iWakeSignals ∧
    s.iWakeSignals = 0 ∧ s2.iWakeSignals = 0 := by
  have hpb : s.iWakeSignals = 0 := by
    rcases pending_or_blocked s hre with h1 | h1
    · exact absurd h1 hb
    · exact h1
  cases hst with
  | wakeOneRelease pre time post hbl =>
    refine ⟨⟨time, rfl⟩, ?_, rfl, hpb, hpb⟩
    show (pre ++ post).length + 1 = s.blocked.length
    rw [hbl]
    simp only [List.length_append, List.length_cons]
    omega
  | wakeOneRecord hbl => exact absurd hbl hb

/-- C6 witness: from the reachable state with one thread blocked (timeout
7) in Queue mode, a wakeOne releases it and both before and after the
pending counter is 0. -/
theorem C6_wakeOne_releases_one_witness :
    (∃ t, (some 7 : Option Nat) = some t) ∧
    (⟨true, 0, []⟩ : SysState).blocked.length + 1 =
      (⟨true, 0, [7]⟩ : SysState).blocked.length ∧
    (⟨true, 0, []⟩ : SysState).iWakeSignals = (⟨true, 0, [7]⟩ : SysState).iWakeSignals ∧
    (⟨true, 0, [7]⟩ : SysState).iWakeSignals = 0 ∧
    (⟨true, 0, []⟩ : SysState).iWakeSignals = 0 :=
  C6_wakeOne_releases_one ⟨true, 0, [7]⟩ ⟨true, 0, []⟩ (some 7)
    (Reachable.step _ _ (Label.waitBlockL 7) (Reachable.init QueueMode.Queue)
      (Step.waitSuspend _ 7 rfl (by norm_num [ULONG_MAX])))
    (by simp)
    (Step.wakeOneRelease _ [] 7 [] rfl)

/-- C7: a completed wait call reports a boolean and nothing else: true
exactly when it was woken (a consumed pending signal or a wakeOne
release), false exactly when the bound elapsed, which is impossible for
the ULONG_MAX wait-forever sentinel; spurious resumes are filtered and
report nothing. -/
theorem C7_wait_return_boolean :
    (∀ (s : SysState) (t : Nat) (s2 : SysState), Step s (Label.timeoutL t) s2 →
      waitReturn (Label.timeoutL t) = some false ∧ t ≠ ULONG_MAX) ∧
    (∀ l : Label, waitReturn l = some false → ∃ t, l = Label.timeoutL t) ∧
    (∀ (s s2 : SysState), Step s Label.waitImm s2 →
      waitReturn Label.waitImm = some true ∧ 0 < s.iWakeSignals ∧
      s2.iWakeSignals + 1 = s.iWakeSignals) ∧
    (∀ (s : SysState) (t : Nat) (s2 : SysState), Step s (Label.wakeOneL (some t)) s2 →
      waitReturn (Label.wakeOneL (some t)) = some true ∧ t ∈ s.blocked) ∧
    (∀ (s : SysState) (t : Nat) (s2 : SysState), Step s (Label.spuriousL t) s2 →
      waitReturn (Label.spuriousL t) = none ∧ s2 = s) := by
  refine ⟨?_, ?_, ?_, ?_, ?_⟩
  · intro s t s2 hst
    cases hst with
    | timeoutStep pre time post hne hbl => exact ⟨rfl, hne⟩
  · intro l h
    cases l with
    | waitImm => simp [waitReturn] at h
    | waitBlockL time => simp [waitReturn] at h
    | wakeOneL r => cases r <;> simp [waitReturn] at h
    | wakeAllL rel => simp [waitReturn] at h
    | timeoutL time => exact ⟨time, rfl⟩
    | spuriousL time => simp [waitReturn] at h
  · intro s s2 hst
    cases hst with
    | waitImmediate hp =>
      refine ⟨rfl, hp, ?_⟩
      show s.iWakeSignals - 1 + 1 = s.iWakeSignals
      omega
  · intro s t s2 hst
    cases hst with
    | wakeOneRelease pre time post hbl =>
      refine ⟨rfl, ?_⟩
      rw [hbl]
      simp
  · intro s t s2 hst
    cases hst with
    | spuriousStep pre time post hbl => exact ⟨rfl, rfl⟩

/-- C7 witness: a timed-out wait with bound 5 reports false and 5 is not
the sentinel; a wait consuming one of 3 pending signals reports true and
leaves 2. -/
theorem C7_wait_return_boolean_witness :
    (waitReturn (Label.timeoutL 5) = some false ∧ (5 : Nat) ≠ ULONG_MAX) ∧
    (waitReturn Label.waitImm = some true ∧ 0 < (⟨true, 3, []⟩ : SysState).iWakeSignals ∧
      (⟨true, 2, []⟩ : SysState).iWakeSignals + 1 = (⟨true, 3, []⟩ : SysState).iWakeSignals) := by
  refine ⟨C7_wait_return_boolean.1 ⟨true, 0, [5]⟩ 5 ⟨true, 0, []⟩
    (Step.timeoutStep _ [] 5 [] (by norm_num [ULONG_MAX]) rfl), ?_⟩
  exact C7_wait_return_boolean.2.2.1 ⟨true, 3, []⟩ ⟨true, 2, []⟩
    (Step.waitImmediate _ (by norm_num))

/-- C8 counterexample: a wake signal can be lost. The Queue-mode state
with 2 to the power 32 minus 1 pending signals and no blocked thread is
reachable; a wakeOne issued there while no thread is blocked wraps the
32-bit counter to 0, and the next wait call suspends instead of returning
immediately, so the signal was not remembered. -/
theorem C8_wrap_loses_signal :
    Reachable ⟨true, 2 ^ 32 - 1, []⟩ ∧
    Step ⟨true, 2 ^ 32 - 1, []⟩ (Label.wakeOneL none) ⟨true, 0, []⟩ ∧
    (⟨true, 0, []⟩ : SysState).iWakeSignals = 0 ∧
    Step ⟨true, 0, []⟩ (Label.waitBlockL 5) ⟨true, 0, [5]⟩ := by
  refine ⟨?_, ?_, rfl, ?_⟩
  · have h := reachable_queue_pending (2 ^ 32 - 1)
    rwa [Nat.mod_eq_of_lt (by norm_num [UINT_MOD])] at h
  · have hn : nextWakeSignals true (2 ^ 32 - 1) = 0 := by
      norm_num [nextWakeSignals, UINT_MOD]
    have he : (⟨true, 0, []⟩ : SysState) =
        { bQueue := true, iWakeSignals := nextWakeSignals true (2 ^ 32 - 1),
          blocked := ([] : List Nat) } := by
      rw [hn]
    rw [he]
    exact Step.wakeOneRecord _ rfl
  · exact Step.waitSuspend _ 5 rfl (by norm_num [ULONG_MAX])

/-- C8 (amended): no wake signal is lost short of counter wraparound. A
wakeOne with no blocked thread records a signal: in Queue mode the
pending counter grows by exactly 1 whenever that stays below 2 to the
power 32 (the 32-bit storage), and in NoQueue mode it becomes positive;
any state with a positive pending counter lets the next wait return
immediately and forbids it from suspending. A wakeOne arriving after a
wait has suspended always releases a waiter (the sole waiter if there was
exactly one) rather than queuing, and a wakeAll releases every waiter,
that one included. Spurious resumes are filtered: they change nothing and
report no return. -/
theorem C8_no_missed_wakeup :
    (∀ (s s2 : SysState), Step s (Label.wakeOneL none) s2 →
      s.blocked = [] ∧
      (s.bQueue = true → s.iWakeSignals + 1 < UINT_MOD →
        s2.iWakeSignals = s.iWakeSignals + 1) ∧
      (s.bQueue = false → 0 < s2.iWakeSignals)) ∧
    (∀ s : SysState, 0 < s.iWakeSignals →
      (∃ s2, Step s Label.waitImm s2) ∧
      (∀ (t : Nat) (s2 : SysState), ¬ Step s (Label.waitBlockL t) s2)) ∧
    (∀ (s : SysState) (time : Nat) (s1 : SysState),
      Step s (Label.waitBlockL time) s1 →
      time ∈ s1.blocked ∧
      (∀ (r : Option Nat) (s2 : SysState), Step s1 (Label.wakeOneL r) s2 →
        ∃ u, r = some u ∧ s2.blocked.length + 1 = s1.blocked.length) ∧
      (s.blocked = [] → ∀ (r : Option Nat) (s2 : SysState),
        Step s1 (Label.wakeOneL r) s2 → r = some time ∧ s2.blocked = []) ∧
      (∀ (rel : List Nat) (s2 : SysState), Step s1 (Label.wakeAllL rel) s2 →
        time ∈ rel ∧ s2.blocked = [])) ∧
    (∀ (s : SysState) (t : Nat) (s2 : SysState), Step s (Label.spuriousL t) s2 →
      s2 = s ∧ waitReturn (Label.spuriousL t) = none) := by
  refine ⟨?_, ?_, ?_, ?_⟩
  · intro s s2 hst
    cases hst with
    | wakeOneRecord hbl =>
      refine ⟨hbl, ?_, ?_⟩
      · intro hbq hlt
        show nextWakeSignals s.bQueue s.iWakeSignals = s.iWakeSignals + 1
        rw [hbq]
        show (s.iWakeSignals + 1) % UINT_MOD = s.iWakeSignals + 1
        exact Nat.mod_eq_of_lt hlt
      · intro hbq
        show 0 < nextWakeSignals s.bQueue s.iWakeSignals
        rw [hbq]
        show 0 < if s.iWakeSignals = 0 then 1 else s.iWakeSignals
        split <;> omega
  · intro s hp
    constructor
    · exact ⟨_, Step.waitImmediate s hp⟩
    · intro t s2 hst
      cases hst with
      | waitSuspend hp0 hle => omega
  · intro s time s1 hst
    cases hst with
    | waitSuspend time hp hle =>
      refine ⟨by simp, ?_, ?_, ?_⟩
      · intro r s2 hst2
        cases hst2 with
        | wakeOneRelease pre u post hbl =>
          refine ⟨u, rfl, ?_⟩
          have hbl2 : time :: s.blocked = pre ++ u :: post := hbl
          have hlen := congrArg List.length hbl2
          simp only [List.length_append, List.length_cons] at hlen
          show (pre ++ post).length + 1 = (time :: s.blocked).length
          simp only [List.length_append, List.length_cons]
          omega
        | wakeOneRecord hbl =>
          exact absurd hbl (by simp)
      · intro hsb r s2 hst2
        cases hst2 with
        | wakeOneRelease pre u post hbl =>
          have hbl2 : time :: s.blocked = pre ++ u :: post := hbl
          rw [hsb] at hbl2
          cases pre with
          | nil =>
            simp only [List.nil_append] at hbl2
            injection hbl2 with h1 h2
            exact ⟨by rw [h1], h2.symm⟩
          | cons a pre2 =>
            simp only [List.cons_append] at hbl2
            injection hbl2 with h1 h2
            exact absurd h2.symm (by simp)
        | wakeOneRecord hbl =>
          exact absurd hbl (by simp)
      · intro rel s2 hst2
        cases hst2 with
        | wakeAllStep =>
          constructor
          · show time ∈ time :: s.blocked
            simp
          · rfl
  · intro s t s2 hst
    cases hst with
    | spuriousStep pre u post hbl => exact ⟨rfl, rfl⟩

/-- C8 witness: a wakeOne on the fresh Queue state with no blocked thread
raises the pending counter from 0 to 1, and from that state a wait can
return immediately. -/
theorem C8_no_missed_wakeup_witness :
    (⟨true, 1, []⟩ : SysState).iWakeSignals = (⟨true, 0, []⟩ : SysState).iWakeSignals + 1 ∧
    (∃ s2, Step ⟨true, 1, []⟩ Label.waitImm s2) := by
  constructor
  · exact (C8_no_missed_wakeup.1 ⟨true, 0, []⟩ ⟨true, 1, []⟩
      (Step.wakeOneRecord _ rfl)).2.1 rfl (by norm_num [UINT_MOD])
  · exact (C8_no_missed_wakeup.2.1 ⟨true, 1, []⟩ (by decide)).1

/-- C9 counterexample: a wakeOne issued in Queue mode while waiterCount
is 0 does not always increase the pending count by one: the state with
2 to the power 32 minus 1 pending signals is reached from a fresh Queue
instance by that many wakeOne calls, and one further wakeOne wraps the
32-bit counter to 0. -/
theorem C9_wrap_counterexample :
    wakeOneN (2 ^ 32 - 1) (construct QueueMode.Queue) = ⟨true, 0, 2 ^ 32 - 1⟩ ∧
    queueLength (wakeOne ⟨true, 0, 2 ^ 32 - 1⟩) = 0 := by
  constructor
  · have h := wakeOneN_queue (2 ^ 32 - 1) 0 (by norm_num [UINT_MOD])
    rw [show construct QueueMode.Queue = (⟨true, 0, 0⟩ : PiiWaitCondition) from rfl, h]
    norm_num [UINT_MOD]
  · rw [wakeOne_queue]
    simp [queueLength, UINT_MOD]

/-- C9 (amended): in Queue mode with no waiters, each wakeOne call
increments the pending counter by one modulo 2 to the power 32 (the width
of the unsigned int backing queueLength), so accumulation from a fresh
instance is exact modulo 2 to the power 32 rather than unbounded. -/
theorem C9_pending_accumulates_mod (part2k : Nat) (c : PiiWaitCondition)
    (hmode : queueMode c = QueueMode.Queue) (hw : waiterCount c = 0) :
    queueLength (wakeOne c) = (queueLength c + 1) % UINT_MOD ∧
    queueLength (wakeOneN part2k (construct QueueMode.Queue)) = part2k % UINT_MOD := by
  constructor
  · obtain ⟨b, w, p⟩ := c
    simp only [waiterCount] at hw
    subst hw
    cases b with
    | false => exact absurd hmode (by simp [queueMode])
    | true =>
      rw [wakeOne_queue]
      rfl
  · have h := wakeOneN_queue part2k 0 (by norm_num [UINT_MOD])
    rw [show construct QueueMode.Queue = (⟨true, 0, 0⟩ : PiiWaitCondition) from rfl, h]
    simp [queueLength]

/-- C9 witness: from 5 pending signals in Queue mode, wakeOne yields
6 modulo 2 to the power 32; five wakeOne calls on a fresh Queue instance
yield queueLength 5 modulo 2 to the power 32. -/
theorem C9_pending_accumulates_mod_witness :
    queueLength (wakeOne ⟨true, 0, 5⟩) = (queueLength ⟨true, 0, 5⟩ + 1) % UINT_MOD ∧
    queueLength (wakeOneN 5 (construct QueueMode.Queue)) = 5 % UINT_MOD :=
  C9_pending_accumulates_mod 5 ⟨true, 0, 5⟩ rfl rfl

/-- C10: the timeout accepted by wait is an unsigned long: it is never
negative, is at most ULONG_MAX, and a suspended wait can time out exactly
when its bound is not the ULONG_MAX sentinel, so no caller can request a
bounded wait of exactly ULONG_MAX milliseconds; every value up to
ULONG_MAX can be requested. -/
theorem C10_timeout_domain :
    (∀ (s : SysState) (time : Nat) (s1 : SysState),
      Step s (Label.waitBlockL time) s1 →
      (0 : Int) ≤ (time : Int) ∧ time ≤ ULONG_MAX ∧
      ((∃ s2, Step s1 (Label.timeoutL time) s2) ↔ time ≠ ULONG_MAX)) ∧
    (∀ (b : Bool) (bl : List Nat) (time : Nat), time ≤ ULONG_MAX →
      ∃ s1, Step ⟨b, 0, bl⟩ (Label.waitBlockL time) s1) := by
  constructor
  · intro s time s1 hst
    cases hst with
    | waitSuspend time hp hle =>
      refine ⟨Int.natCast_nonneg time, hle, ?_⟩
      constructor
      · rintro ⟨s2, hst2⟩
        cases hst2 with
        | timeoutStep pre u post hne hbl => exact hne
      · intro hne
        exact ⟨_, Step.timeoutStep _ [] time s.blocked hne rfl⟩
  · intro b bl time hle
    exact ⟨_, Step.waitSuspend ⟨b, 0, bl⟩ time rfl hle⟩

/-- C10 witness: a wait suspended with bound 5 has a nonnegative
representable bound and can time out, 5 not being the sentinel. -/
theorem C10_timeout_domain_witness :
    (0 : Int) ≤ ((5 : Nat) : Int) ∧ (5 : Nat) ≤ ULONG_MAX ∧
    ((∃ s2, Step ⟨true, 0, [5]⟩ (Label.timeoutL 5) s2) ↔ (5 : Nat) ≠ ULONG_MAX) :=
  C10_timeout_domain.1 ⟨true, 0, []⟩ 5 ⟨true, 0, [5]⟩
    (Step.waitSuspend _ 5 rfl (by norm_num [ULONG_MAX]))
